import Mathlib

/-!
Verification of the event-registration form core of the CCEA website
(`src/components/forms/EventRegistrationForm.tsx` together with the
utility modules it imports from `@/utils/formValidation` and
`@/utils/securityMonitoring`).

The form component itself is present in the repository; the utility
modules (sanitizer, validator, rate limiter, security monitor) are not,
so those are modelled from the specification's contracts (section 4 of
the spec) and each such definition carries a doc comment starting with
`Modelled from the spec:`.

Strings of user input are embedded as `List Char` where character-level
reasoning is needed (the sanitizer) and as Lean `String` elsewhere;
timestamps are integers (milliseconds).
-/

namespace CCEA

/-! ## Sanitizer -/

/-- Characters removed by the sanitizer: `<`, `>` and quote characters,
per the spec's contract for `sanitize`. -/
def isDangerousChar (c : Char) : Bool :=
  c == '<' || c == '>' || c == '"' || c == '\''

/-- Remove trailing whitespace from a list of characters. -/
def dropTrailingWS (l : List Char) : List Char :=
  (l.reverse.dropWhile Char.isWhitespace).reverse

/-- Remove leading and trailing whitespace. -/
def trimChars (l : List Char) : List Char :=
  dropTrailingWS (l.dropWhile Char.isWhitespace)

/-- Modelled from the spec: `sanitizeInput` lives in
`src/utils/formValidation.ts`, which is not part of the sources here.
Contract (spec 4.1): removes characters that could enable script
injection (`<`, `>`, quote characters) and trims leading/trailing
whitespace; pure and total. -/
def sanitizeInput (l : List Char) : List Char :=
  trimChars (l.filter (fun c => !isDangerousChar c))

/-- Modelled from the spec: the sanitizer returns the empty string for
undefined input. -/
def sanitizeInputOpt : Option (List Char) → List Char
  | none => []
  | some l => sanitizeInput l

/-! ## Rate limiter

Modelled from the spec (4.3): state is a mapping from action key to the
ordered sequence of attempt timestamps, pruned lazily on each check. -/

/-- Rate-limiter state: association list from action key to the stored
attempt timestamps (milliseconds). -/
abbrev RLState := List (String × List Int)

/-- Timestamps stored for a key (empty when the key is absent). -/
def getAttempts (st : RLState) (key : String) : List Int :=
  match st.find? (fun p => p.1 == key) with
  | some p => p.2
  | none => []

/-- Replace (or insert) the timestamp list stored for a key. -/
def setAttempts (st : RLState) (key : String) (ts : List Int) : RLState :=
  match st with
  | [] => [(key, ts)]
  | p :: rest => if p.1 == key then (key, ts) :: rest else p :: setAttempts rest key ts

/-- Discard timestamps older than `now - windowMs`. -/
def pruneAttempts (ts : List Int) (windowMs now : Int) : List Int :=
  ts.filter (fun t => now - windowMs ≤ t)

/-- Modelled from the spec: `rateLimiter.isAllowed` lives in
`src/utils/formValidation.ts`, which is not part of the sources here.
Contract (spec 4.3): prune stored timestamps for `key` older than
`now - windowMs`; if the remaining count is below `maxAttempts`, record
`now` and return true; else return false without recording. Returns the
decision together with the updated state. -/
def isAllowed (st : RLState) (key : String) (maxAttempts : Nat)
    (windowMs now : Int) : Bool × RLState :=
  let ts := pruneAttempts (getAttempts st key) windowMs now
  if ts.length < maxAttempts then (true, setAttempts st key (ts ++ [now]))
  else (false, setAttempts st key ts)

/-- Modelled from the spec: `rateLimiter.getRemainingTime` lives in
`src/utils/formValidation.ts`, which is not part of the sources here.
Contract (spec 4.3): milliseconds until the oldest non-pruned attempt
exits the window, 0 if there are no attempts. -/
def getRemainingTime (st : RLState) (key : String) (windowMs now : Int) : Int :=
  match (pruneAttempts (getAttempts st key) windowMs now).min? with
  | none => 0
  | some oldest => max 0 (oldest + windowMs - now)

/-! ## Validator

Modelled from the spec (4.2): declarative per-field rules
(required / minLength / maxLength / pattern), evaluated in that order
with per-field short-circuit; errors accumulate across fields. -/

/-- A per-field rule descriptor. The pattern is embedded as an abstract
Boolean predicate on the value (the spec gives only examples such as
email or phone shape). -/
structure ValidationRule where
  required : Bool
  minLength : Option Nat
  maxLength : Option Nat
  pattern : Option (String → Bool)

/-- Whitespace trimming on `String`, through the character-list model
(the validator's checks operate on the trimmed value). -/
def trimStr (s : String) : String := ⟨trimChars s.data⟩

/-- Error message for a failing required rule (spec: "<Field> is required"). -/
def requiredMsg (field : String) : String := field ++ " is required"

/-- Error message naming a violated minimum-length bound. -/
def minLengthMsg (field : String) (m : Nat) : String :=
  field ++ " must be at least " ++ toString m ++ " characters"

/-- Error message naming a violated maximum-length bound. -/
def maxLengthMsg (field : String) (m : Nat) : String :=
  field ++ " must be at most " ++ toString m ++ " characters"

/-- Error message for a failing pattern rule. -/
def patternMsg (field : String) : String := field ++ " is invalid"

/-- Minimum-length check on the trimmed length. -/
def checkMin (field : String) (len : Nat) : Option Nat → Option String
  | some m => if len < m then some (minLengthMsg field m) else none
  | none => none

/-- Maximum-length check on the trimmed length. -/
def checkMax (field : String) (len : Nat) : Option Nat → Option String
  | some m => if m < len then some (maxLengthMsg field m) else none
  | none => none

/-- Pattern check on the raw value. -/
def checkPattern (field value : String) : Option (String → Bool) → Option String
  | some p => if p value then none else some (patternMsg field)
  | none => none

/-- Evaluate one field: required, then length bounds, then pattern,
stopping at the first failure; `none` means the field is valid. -/
def checkField (field value : String) (rule : ValidationRule) : Option String :=
  if rule.required && trimStr value == "" then some (requiredMsg field)
  else
    (checkMin field (trimStr value).length rule.minLength).orElse fun _ =>
      (checkMax field (trimStr value).length rule.maxLength).orElse fun _ =>
        checkPattern field value rule.pattern

/-- Result of a validation call: a validity flag and the accumulated
field-to-message errors, in rule order. -/
structure ValidationResult where
  isValid : Bool
  errors : List (String × String)

/-- Modelled from the spec: `validateForm` lives in
`src/utils/formValidation.ts`, which is not part of the sources here.
Contract (spec 4.2): evaluate every field present in the rules,
accumulating the first error of each failing field; `isValid` is true
exactly when no field produced an error. -/
def validateForm (values : String → String)
    (rules : List (String × ValidationRule)) : ValidationResult :=
  let errs := rules.filterMap fun p =>
    (checkField p.1 (values p.1) p.2).map fun msg => (p.1, msg)
  ⟨errs.isEmpty, errs⟩

/-! ## Security monitor

Modelled from the spec (4.4): `logEvent` appends an event with the
current timestamp to an in-memory log; `detectSuspiciousActivity` is an
unspecified deterministic heuristic over the log, so the orchestration
below is parameterised by it. -/

/-- A logged security event: its type plus the metadata fields the form
component attaches (`form`, `remainingTime`, `errors`, `success`);
fields not supplied by a call site are `none`. -/
structure SecurityEvent where
  etype : String
  form : String
  remainingTime : Option Int
  errors : Option (List (String × String))
  success : Option Bool
deriving DecidableEq

/-! ## Form orchestration (`onSubmit`, source lines 63-130) -/

/-- The rate-limiter action key used by the form (source line 65). -/
def eventRegKey : String := "event-registration"

/-- Ceiling division for a nonnegative numerator, matching
`Math.ceil(x / 1000 / 60)` on a nonnegative millisecond count. -/
def ceilDiv (a b : Int) : Int := (a + b - 1) / b

/-- Toast variants used by the component. -/
inductive ToastVariant
  | normal
  | destructive
deriving DecidableEq

/-- A toast notification (title, description, variant). -/
structure Toast where
  title : String
  description : String
  variant : ToastVariant
deriving DecidableEq

/-- The client-side state the submission handler reads and writes:
rate-limiter store, security-event log, the component's `formErrors`,
and its `isSubmitting` flag. -/
structure FormState where
  rl : RLState
  events : List SecurityEvent
  formErrors : List (String × String)
  isSubmitting : Bool
deriving DecidableEq

/-- How a submission attempt ended. -/
inductive SubmitOutcome
  | rateLimited
  | validationFailed
  | suspiciousBlocked
  | success
deriving DecidableEq

/-- Result of one submission attempt: the updated client state, the
outcome, the toasts shown, and whether the handler entered the
Submitting phase (`setIsSubmitting(true)`, source line 105). -/
structure SubmitResult where
  state : FormState
  outcome : SubmitOutcome
  toasts : List Toast
  submittingEntered : Bool
deriving DecidableEq

/-- The toast shown on successful registration (source lines 115-118). -/
def successToast (eventTitle : String) : Toast :=
  ⟨"Registration successful!",
    "Thank you for registering for \"" ++ eventTitle
      ++ "\"! You will receive a confirmation email with event details and payment instructions.",
    ToastVariant.normal⟩

/-- The `onSubmit` handler (source lines 63-130): rate-limit check,
then validation, then the suspicious-activity check, then the simulated
submission (which always succeeds). `suspicious` stands for
`securityMonitor.detectSuspiciousActivity` applied to the current log,
and `rules` for the rule set built at lines 78-85 (the
`commonValidationRules` it references are not part of the sources). -/
def onSubmit (suspicious : List SecurityEvent → Bool)
    (rules : List (String × ValidationRule)) (eventTitle : String)
    (now : Int) (data : String → String) (st : FormState) : SubmitResult :=
  let res := isAllowed st.rl eventRegKey 3 300000 now
  if !res.1 then
    let remainingTime := ceilDiv (getRemainingTime res.2 eventRegKey 300000 now) 60000
    ⟨⟨res.2, st.events ++ [⟨"rate_limit_exceeded", eventRegKey, some remainingTime, none, none⟩],
        st.formErrors, st.isSubmitting⟩,
      SubmitOutcome.rateLimited,
      [⟨"Too many attempts",
        "Please wait " ++ toString remainingTime ++ " minutes before submitting again.",
        ToastVariant.destructive⟩],
      false⟩
  else
    let validation := validateForm data rules
    if !validation.isValid then
      ⟨⟨res.2, st.events ++ [⟨"validation_failed", eventRegKey, none, some validation.errors, none⟩],
          validation.errors, st.isSubmitting⟩,
        SubmitOutcome.validationFailed, [], false⟩
    else if suspicious st.events then
      ⟨⟨res.2, st.events, st.formErrors, st.isSubmitting⟩,
        SubmitOutcome.suspiciousBlocked,
        [⟨"Security Check", "Please wait a moment before submitting.", ToastVariant.destructive⟩],
        false⟩
    else
      ⟨⟨res.2, st.events ++ [⟨"form_submission", eventRegKey, none, none, some true⟩],
          st.formErrors, false⟩,
        SubmitOutcome.success, [successToast eventTitle], true⟩

/-- The position rule built inline at source line 84:
`{ required: true, minLength: 2, maxLength: 100 }`. -/
def positionRule : ValidationRule := ⟨true, some 2, some 100, none⟩

/-! ## Conditional rendering of fee options (source lines 132-138, 255-301) -/

/-- The optional fee amounts of `event.registrationInfo.fees`. -/
structure Fees where
  regular : Option Int
  earlyBird : Option Int
  student : Option Int
  member : Option Int
deriving DecidableEq

/-- JavaScript truthiness of an optional numeric field: `undefined` and
`0` are falsy, any other number is truthy. -/
def jsTruthyNum : Option Int → Bool
  | none => false
  | some n => !(n == 0)

/-- One day in milliseconds, for the 30-day early-bird deadline. -/
def dayMs : Int := 86400000

/-- `isEarlyBird` (source lines 133-138): the current date is strictly
before the deadline obtained by moving the event start date back 30
days. -/
def isEarlyBird (today startDate : Int) : Bool :=
  today < startDate - 30 * dayMs

/-- Whether the early-bird registration option is rendered
(source line 280): `fees.earlyBird && isEarlyBird`, guarded by the
outer `fees && ...` at line 255. -/
def showEarlyBirdOption (fees : Option Fees) (today startDate : Int) : Bool :=
  match fees with
  | none => false
  | some f => jsTruthyNum f.earlyBird && isEarlyBird today startDate

/-- Whether the member option is rendered (source line 260). -/
def showMemberOption (fees : Option Fees) : Bool :=
  match fees with
  | none => false
  | some f => jsTruthyNum f.member

/-- Whether the student option is rendered (source line 270). -/
def showStudentOption (fees : Option Fees) : Bool :=
  match fees with
  | none => false
  | some f => jsTruthyNum f.student

/-- Whether the regular option is rendered (source line 290). -/
def showRegularOption (fees : Option Fees) : Bool :=
  match fees with
  | none => false
  | some f => jsTruthyNum f.regular

/-! ## Helper lemmas -/

/-- Reading back the key just written returns the stored list. -/
theorem getAttempts_setAttempts (st : RLState) (key : String) (ts : List Int) :
    getAttempts (setAttempts st key ts) key = ts := by
  induction st with
  | nil => simp [getAttempts, setAttempts]
  | cons p rest ih =>
    by_cases h : p.1 == key
    · simp [getAttempts, setAttempts, h, List.find?]
    · simpa [getAttempts, setAttempts, h, List.find?] using ih

/-- Claim C1: each `isAllowed(key, maxAttempts, windowMs)` call first
discards stored timestamps older than `now - windowMs`; if the
remaining count is strictly below `maxAttempts` it records `now` and
returns true, otherwise it returns false and records nothing; in
particular three immediate calls with limit 3 and window 1000 return
true, true, true, a fourth immediate call returns false, and a call
after the window has elapsed returns true. -/
theorem isAllowed_spec :
    (∀ (st : RLState) (key : String) (maxAttempts : Nat) (windowMs now : Int),
      (isAllowed st key maxAttempts windowMs now).1
          = decide ((pruneAttempts (getAttempts st key) windowMs now).length < maxAttempts)
        ∧ getAttempts (isAllowed st key maxAttempts windowMs now).2 key
          = (if (pruneAttempts (getAttempts st key) windowMs now).length < maxAttempts
              then pruneAttempts (getAttempts st key) windowMs now ++ [now]
              else pruneAttempts (getAttempts st key) windowMs now))
    ∧ (let r1 := isAllowed [] "k" 3 1000 0
       let r2 := isAllowed r1.2 "k" 3 1000 0
       let r3 := isAllowed r2.2 "k" 3 1000 0
       let r4 := isAllowed r3.2 "k" 3 1000 0
       let r5 := isAllowed r4.2 "k" 3 1000 1001
       r1.1 = true ∧ r2.1 = true ∧ r3.1 = true ∧ r4.1 = false ∧ r5.1 = true) := by
  constructor
  · intro st key maxAttempts windowMs now
    by_cases h : (pruneAttempts (getAttempts st key) windowMs now).length < maxAttempts
    · simp [isAllowed, h, getAttempts_setAttempts]
    · simp [isAllowed, h, getAttempts_setAttempts]
  · decide

/-- Claim C8: `getRemainingTime(key, windowMs)` returns the
milliseconds until the oldest non-pruned attempt exits the window, and
0 when no attempts are stored; immediately after exhausting the limit
(three immediate allowed calls) it returns a value strictly greater
than 0 and at most `windowMs`. -/
theorem getRemainingTime_spec :
    (∀ (st : RLState) (key : String) (windowMs now : Int),
      getAttempts st key = [] → getRemainingTime st key windowMs now = 0)
    ∧ (∀ (st : RLState) (key : String) (windowMs now oldest : Int),
      (pruneAttempts (getAttempts st key) windowMs now).min? = some oldest →
      getRemainingTime st key windowMs now = max 0 (oldest + windowMs - now))
    ∧ (∀ (key : String) (windowMs now : Int), 0 < windowMs →
      let r1 := isAllowed [] key 3 windowMs now
      let r2 := isAllowed r1.2 key 3 windowMs now
      let r3 := isAllowed r2.2 key 3 windowMs now
      0 < getRemainingTime r3.2 key windowMs now
        ∧ getRemainingTime r3.2 key windowMs now ≤ windowMs) := by
  refine ⟨?_, ?_, ?_⟩
  · intro st key windowMs now h
    simp [getRemainingTime, h, pruneAttempts]
  · intro st key windowMs now oldest h
    simp [getRemainingTime, h]
  · intro key windowMs now h
    have hle : now - windowMs ≤ now := by omega
    have hle' : now ≤ now + windowMs := by omega
    have h1 : (isAllowed [] key 3 windowMs now).2 = setAttempts [] key [now] := by
      simp [isAllowed, pruneAttempts, getAttempts]
    have h2 : (isAllowed (setAttempts [] key [now]) key 3 windowMs now).2
        = setAttempts (setAttempts [] key [now]) key [now, now] := by
      simp [isAllowed, pruneAttempts, getAttempts_setAttempts, hle, hle']
    have h3 : (isAllowed (setAttempts (setAttempts [] key [now]) key [now, now]) key 3
            windowMs now).2
        = setAttempts (setAttempts (setAttempts [] key [now]) key [now, now]) key
            [now, now, now] := by
      simp [isAllowed, pruneAttempts, getAttempts_setAttempts, hle, hle']
    have h4 : getRemainingTime
        (setAttempts (setAttempts (setAttempts [] key [now]) key [now, now]) key
          [now, now, now]) key windowMs now = windowMs := by
      simp [getRemainingTime, pruneAttempts, getAttempts_setAttempts, hle, hle', List.min?]
      omega
    simp only [h1, h2, h3, h4]
    omega

/-- Witness for C8: concrete instances of the three parts of
`getRemainingTime_spec`. -/
theorem getRemainingTime_spec_witness :
    getRemainingTime [] "k" 1000 0 = 0
      ∧ getRemainingTime [("k", [5])] "k" 1000 10 = max 0 (5 + 1000 - 10)
      ∧ (let r1 := isAllowed [] "k" 3 1000 0
         let r2 := isAllowed r1.2 "k" 3 1000 0
         let r3 := isAllowed r2.2 "k" 3 1000 0
         0 < getRemainingTime r3.2 "k" 1000 0
           ∧ getRemainingTime r3.2 "k" 1000 0 ≤ 1000) :=
  ⟨getRemainingTime_spec.1 [] "k" 1000 0 rfl,
   getRemainingTime_spec.2.1 [("k", [5])] "k" 1000 10 5 (by decide),
   getRemainingTime_spec.2.2 "k" 1000 0 (by decide)⟩

/-- The head of a nonempty `dropWhile` result fails the predicate. -/
theorem dropWhile_cons_head_false (p : Char → Bool) :
    ∀ (l s : List Char) (x : Char), l.dropWhile p = x :: s → p x = false := by
  intro l
  induction l with
  | nil => intro s x h; simp [List.dropWhile] at h
  | cons c t ih =>
    intro s x h
    rw [List.dropWhile_cons] at h
    by_cases hc : p c
    · rw [if_pos hc] at h
      exact ih s x h
    · rw [if_neg hc] at h
      injection h with h1 h2
      subst h1
      simpa using hc

/-- Dropping twice from the front is the same as dropping once. -/
theorem dropWhile_dropWhile (p : Char → Bool) (l : List Char) :
    (l.dropWhile p).dropWhile p = l.dropWhile p := by
  cases h : l.dropWhile p with
  | nil => rfl
  | cons x s =>
    have hx := dropWhile_cons_head_false p l s x h
    simp [List.dropWhile_cons, hx]

/-- A prefix of a `dropWhile` result is left unchanged by `dropWhile`. -/
theorem dropWhile_eq_self_of_isPrefixOf (p : Char → Bool) (l m : List Char)
    (h : m <+: l.dropWhile p) : m.dropWhile p = m := by
  cases hm : m with
  | nil => rfl
  | cons x rest =>
    obtain ⟨t, ht⟩ := h
    rw [hm] at ht
    have hx : p x = false := dropWhile_cons_head_false p l (rest ++ t) x (by simpa using ht.symm)
    simp [List.dropWhile_cons, hx]

/-- `dropTrailingWS` returns a prefix of its argument. -/
theorem dropTrailingWS_isPrefixOf (l : List Char) : dropTrailingWS l <+: l := by
  have h1 : l.reverse.dropWhile Char.isWhitespace <:+ l.reverse :=
    List.dropWhile_suffix _
  obtain ⟨t, ht⟩ := h1
  refine ⟨t.reverse, ?_⟩
  calc (l.reverse.dropWhile Char.isWhitespace).reverse ++ t.reverse
      = (t ++ l.reverse.dropWhile Char.isWhitespace).reverse := by
        rw [List.reverse_append]
    _ = l.reverse.reverse := by rw [ht]
    _ = l := List.reverse_reverse l

/-- `dropTrailingWS` is idempotent. -/
theorem dropTrailingWS_dropTrailingWS (l : List Char) :
    dropTrailingWS (dropTrailingWS l) = dropTrailingWS l := by
  simp [dropTrailingWS, List.reverse_reverse, dropWhile_dropWhile]

/-- Leading whitespace never reappears after trimming. -/
theorem dropWhile_trimChars (l : List Char) :
    (trimChars l).dropWhile Char.isWhitespace = trimChars l := by
  exact dropWhile_eq_self_of_isPrefixOf Char.isWhitespace l (trimChars l)
    (dropTrailingWS_isPrefixOf (l.dropWhile Char.isWhitespace))

/-- Trimming is idempotent. -/
theorem trimChars_trimChars (l : List Char) :
    trimChars (trimChars l) = trimChars l := by
  show dropTrailingWS ((trimChars l).dropWhile Char.isWhitespace) = trimChars l
  rw [dropWhile_trimChars]
  exact dropTrailingWS_dropTrailingWS _

/-- Every character of the trimmed list occurs in the original list. -/
theorem mem_of_mem_trimChars (a : Char) (l : List Char) (h : a ∈ trimChars l) :
    a ∈ l := by
  have h1 : a ∈ l.dropWhile Char.isWhitespace :=
    (dropTrailingWS_isPrefixOf (l.dropWhile Char.isWhitespace)).subset h
  exact (List.dropWhile_sublist _).subset h1

/-- The sanitizer's character filter is stable on its own output. -/
theorem filter_sanitizeInput (l : List Char) :
    (sanitizeInput l).filter (fun c => !isDangerousChar c) = sanitizeInput l := by
  apply List.filter_eq_self.mpr
  intro a ha
  have h1 : a ∈ l.filter (fun c => !isDangerousChar c) := mem_of_mem_trimChars a _ ha
  exact (List.mem_filter.mp h1).2

/-- Claim C5: `sanitizeInput` is a total pure function on strings: its
output never contains `<` or `>` (in particular for inputs containing
`<script>`), its output carries no leading or trailing whitespace, and
empty or undefined input yields the empty string. -/
theorem sanitizeInput_spec :
    (∀ l : List Char, '<' ∉ sanitizeInput l ∧ '>' ∉ sanitizeInput l)
      ∧ (∀ l : List Char, trimChars (sanitizeInput l) = sanitizeInput l)
      ∧ sanitizeInput [] = []
      ∧ sanitizeInputOpt none = [] := by
  refine ⟨?_, ?_, rfl, rfl⟩
  · intro l
    constructor
    · intro h
      have h1 := (List.mem_filter.mp (mem_of_mem_trimChars _ _ h)).2
      simp [isDangerousChar] at h1
    · intro h
      have h1 := (List.mem_filter.mp (mem_of_mem_trimChars _ _ h)).2
      simp [isDangerousChar] at h1
  · intro l
    exact trimChars_trimChars _

/-- Claim C6: the sanitizer is idempotent:
`sanitize(sanitize(x)) = sanitize(x)` for every string `x`. -/
theorem sanitizeInput_idempotent (l : List Char) :
    sanitizeInput (sanitizeInput l) = sanitizeInput l := by
  calc sanitizeInput (sanitizeInput l)
      = trimChars ((sanitizeInput l).filter fun c => !isDangerousChar c) := rfl
    _ = trimChars (sanitizeInput l) := by rw [filter_sanitizeInput]
    _ = trimChars (trimChars (l.filter fun c => !isDangerousChar c)) := rfl
    _ = trimChars (l.filter fun c => !isDangerousChar c) := trimChars_trimChars _
    _ = sanitizeInput l := rfl

/-- Claim C4: `validateForm` evaluates every field of the rule set in
rule order with the per-field checks ordered required, then length
bounds, then pattern, short-circuiting within a field at the first
failing rule while still evaluating every other field (errors
accumulate across fields), and `isValid` is true exactly when the error
mapping is empty. Purity and determinism are inherent in the embedding
as a Lean function. -/
theorem validateForm_spec :
    (∀ (values : String → String) (rules : List (String × ValidationRule)),
      (validateForm values rules).isValid = (validateForm values rules).errors.isEmpty)
    ∧ (∀ (values : String → String) (rules : List (String × ValidationRule)),
      (validateForm values rules).errors
        = rules.filterMap fun p =>
            (checkField p.1 (values p.1) p.2).map fun msg => (p.1, msg))
    ∧ (∀ (values : String → String) (r1 r2 : List (String × ValidationRule)),
      (validateForm values (r1 ++ r2)).errors
        = (validateForm values r1).errors ++ (validateForm values r2).errors)
    ∧ (∀ (field value : String) (rule : ValidationRule),
      rule.required = true → trimStr value = "" →
      checkField field value rule = some (requiredMsg field))
    ∧ (∀ (field value : String) (rule : ValidationRule) (m : Nat),
      (rule.required && (trimStr value == "")) = false → rule.minLength = some m →
      (trimStr value).length < m →
      checkField field value rule = some (minLengthMsg field m))
    ∧ (∀ (values : String → String) (field : String),
      values field = "" →
      (validateForm values [(field, ⟨true, none, none, none⟩)]).isValid = false
        ∧ (field, requiredMsg field)
            ∈ (validateForm values [(field, ⟨true, none, none, none⟩)]).errors)
    ∧ (∀ (values : String → String) (field : String) (rule : ValidationRule),
      checkField field (values field) rule = none →
      (validateForm values [(field, rule)]).isValid = true
        ∧ (validateForm values [(field, rule)]).errors = []) := by
  refine ⟨?_, ?_, ?_, ?_, ?_, ?_, ?_⟩
  · intro values rules
    rfl
  · intro values rules
    rfl
  · intro values r1 r2
    simp [validateForm, List.filterMap_append]
  · intro field value rule h1 h2
    simp [checkField, h1, h2]
  · intro field value rule m h1 h2 h3
    simp [checkField, h1, checkMin, h2, h3]
  · intro values field h
    have ht : trimStr "" = "" := by decide
    constructor
    · simp [validateForm, checkField, h, ht]
    · simp [validateForm, checkField, h, ht]
  · intro values field rule h
    constructor
    · simp [validateForm, h]
    · simp [validateForm, h]

/-- Witness for C4: concrete instances of the hypothesised parts of
`validateForm_spec`. -/
theorem validateForm_spec_witness :
    checkField "f" " " ⟨true, some 1, none, none⟩ = some (requiredMsg "f")
      ∧ checkField "f" "ab" ⟨true, some 3, none, some fun _ => false⟩
          = some (minLengthMsg "f" 3)
      ∧ ((validateForm (fun _ => "") [("firstName", ⟨true, none, none, none⟩)]).isValid = false
          ∧ ("firstName", requiredMsg "firstName")
              ∈ (validateForm (fun _ => "") [("firstName", ⟨true, none, none, none⟩)]).errors)
      ∧ ((validateForm (fun _ => "John") [("firstName", ⟨true, some 2, some 50, none⟩)]).isValid
            = true
          ∧ (validateForm (fun _ => "John")
              [("firstName", ⟨true, some 2, some 50, none⟩)]).errors = []) :=
  ⟨validateForm_spec.2.2.2.1 "f" " " ⟨true, some 1, none, none⟩ rfl (by decide),
   validateForm_spec.2.2.2.2.1 "f" "ab" ⟨true, some 3, none, some fun _ => false⟩ 3
     (by decide) rfl (by decide),
   validateForm_spec.2.2.2.2.2.1 (fun _ => "") "firstName" rfl,
   validateForm_spec.2.2.2.2.2.2 (fun _ => "John") "firstName" ⟨true, some 2, some 50, none⟩
     (by decide)⟩

/-- Claim C2: each submission attempt runs the rate-limit check, then
field validation, then the suspicion check, then the simulated
submission (which always succeeds), and a rejection at any stage stops
the flow: a rate-limited attempt runs no validation (its result does
not depend on the submitted data), logs a `rate_limit_exceeded` event,
keeps the form's errors and submitting flag unchanged, and shows the
remaining-wait message. -/
theorem onSubmit_stage_order (suspicious : List SecurityEvent → Bool)
    (rules : List (String × ValidationRule)) (eventTitle : String)
    (now : Int) (data : String → String) (st : FormState) :
    let r := onSubmit suspicious rules eventTitle now data st
    let res := isAllowed st.rl eventRegKey 3 300000 now
    let remaining := ceilDiv (getRemainingTime res.2 eventRegKey 300000 now) 60000
    (res.1 = false →
      r.outcome = SubmitOutcome.rateLimited
        ∧ (∀ data2 : String → String,
            onSubmit suspicious rules eventTitle now data2 st = r)
        ∧ r.state.events
            = st.events ++ [⟨"rate_limit_exceeded", eventRegKey, some remaining, none, none⟩]
        ∧ r.state.formErrors = st.formErrors
        ∧ r.state.isSubmitting = st.isSubmitting
        ∧ r.toasts = [⟨"Too many attempts",
            "Please wait " ++ toString remaining ++ " minutes before submitting again.",
            ToastVariant.destructive⟩]
        ∧ r.submittingEntered = false)
    ∧ (res.1 = true → (validateForm data rules).isValid = false →
      r.outcome = SubmitOutcome.validationFailed ∧ r.submittingEntered = false)
    ∧ (res.1 = true → (validateForm data rules).isValid = true →
        suspicious st.events = true →
      r.outcome = SubmitOutcome.suspiciousBlocked ∧ r.submittingEntered = false)
    ∧ (res.1 = true → (validateForm data rules).isValid = true →
        suspicious st.events = false →
      r.outcome = SubmitOutcome.success) := by
  refine ⟨?_, ?_, ?_, ?_⟩
  · intro h
    refine ⟨?_, ?_, ?_, ?_, ?_, ?_, ?_⟩ <;> simp [onSubmit, h]
  · intro h1 h2
    constructor <;> simp [onSubmit, h1, h2]
  · intro h1 h2 h3
    constructor <;> simp [onSubmit, h1, h2, h3]
  · intro h1 h2 h3
    simp [onSubmit, h1, h2, h3]

/-- A fully-populated rate-limiter state for the form's action key:
three attempts at time 0. -/
def rlFull : RLState := [(eventRegKey, [0, 0, 0])]

/-- An initial client state: no attempts, no events, no errors. -/
def st0 : FormState := ⟨[], [], [], false⟩

/-- Witness for C2: the four stage conclusions of `onSubmit_stage_order`
at concrete inputs. -/
theorem onSubmit_stage_order_witness :
    (onSubmit (fun _ => false) [("position", positionRule)] "T" 0 (fun _ => "Dr")
        ⟨rlFull, [], [], false⟩).outcome = SubmitOutcome.rateLimited
      ∧ (onSubmit (fun _ => false) [("position", positionRule)] "T" 0 (fun _ => "")
          st0).outcome = SubmitOutcome.validationFailed
      ∧ (onSubmit (fun _ => true) [("position", positionRule)] "T" 0 (fun _ => "Dr")
          st0).outcome = SubmitOutcome.suspiciousBlocked
      ∧ (onSubmit (fun _ => false) [("position", positionRule)] "T" 0 (fun _ => "Dr")
          st0).outcome = SubmitOutcome.success :=
  ⟨((onSubmit_stage_order (fun _ => false) [("position", positionRule)] "T" 0 (fun _ => "Dr")
      ⟨rlFull, [], [], false⟩).1 (by decide)).1,
   ((onSubmit_stage_order (fun _ => false) [("position", positionRule)] "T" 0 (fun _ => "")
      st0).2.1 (by decide) (by decide)).1,
   ((onSubmit_stage_order (fun _ => true) [("position", positionRule)] "T" 0 (fun _ => "Dr")
      st0).2.2.1 (by decide) (by decide) rfl).1,
   (onSubmit_stage_order (fun _ => false) [("position", positionRule)] "T" 0 (fun _ => "Dr")
      st0).2.2.2 (by decide) (by decide) rfl⟩

/-- Counterexample to claim C3 as stated: a concrete submission
rejected by the suspicious-activity check (before the submission stage)
after which the security-event log is unchanged — no event records the
rejection (the code's suspicion branch, source lines 96-103, only shows
a toast). -/
theorem onSubmit_suspicious_unlogged_cex :
    (onSubmit (fun _ => true) [("position", positionRule)] "T" 0 (fun _ => "Dr")
        st0).outcome = SubmitOutcome.suspiciousBlocked
      ∧ (onSubmit (fun _ => true) [("position", positionRule)] "T" 0 (fun _ => "Dr")
          st0).state.events = st0.events := by
  constructor
  · decide
  · decide

/-- Claim C3 (amended): attempts rejected by the rate-limit check or by
field validation each log one SecurityMonitor event recording the
rejection; attempts rejected by the suspicious-activity check show a
retry message but log no event. -/
theorem onSubmit_rejection_logging (suspicious : List SecurityEvent → Bool)
    (rules : List (String × ValidationRule)) (eventTitle : String)
    (now : Int) (data : String → String) (st : FormState) :
    let r := onSubmit suspicious rules eventTitle now data st
    let res := isAllowed st.rl eventRegKey 3 300000 now
    (res.1 = false →
      r.state.events = st.events
        ++ [⟨"rate_limit_exceeded", eventRegKey,
            some (ceilDiv (getRemainingTime res.2 eventRegKey 300000 now) 60000),
            none, none⟩])
    ∧ (res.1 = true → (validateForm data rules).isValid = false →
      r.state.events = st.events
        ++ [⟨"validation_failed", eventRegKey, none,
            some (validateForm data rules).errors, none⟩])
    ∧ (res.1 = true → (validateForm data rules).isValid = true →
        suspicious st.events = true →
      r.state.events = st.events ∧ r.toasts
        = [⟨"Security Check", "Please wait a moment before submitting.",
            ToastVariant.destructive⟩]) := by
  refine ⟨?_, ?_, ?_⟩
  · intro h
    simp [onSubmit, h]
  · intro h1 h2
    simp [onSubmit, h1, h2]
  · intro h1 h2 h3
    constructor <;> simp [onSubmit, h1, h2, h3]

/-- Witness for the amended C3: concrete instances of the three parts
of `onSubmit_rejection_logging`. -/
theorem onSubmit_rejection_logging_witness :
    (onSubmit (fun _ => false) [("position", positionRule)] "T" 0 (fun _ => "Dr")
        ⟨rlFull, [], [], false⟩).state.events
      = [] ++ [⟨"rate_limit_exceeded", eventRegKey,
          some (ceilDiv (getRemainingTime
            (isAllowed rlFull eventRegKey 3 300000 0).2 eventRegKey 300000 0) 60000),
          none, none⟩]
    ∧ (onSubmit (fun _ => false) [("position", positionRule)] "T" 0 (fun _ => "")
        st0).state.events
      = [] ++ [⟨"validation_failed", eventRegKey, none,
          some (validateForm (fun _ => "") [("position", positionRule)]).errors, none⟩]
    ∧ ((onSubmit (fun _ => true) [("position", positionRule)] "T" 0 (fun _ => "Dr")
          st0).state.events = []
        ∧ (onSubmit (fun _ => true) [("position", positionRule)] "T" 0 (fun _ => "Dr")
            st0).toasts
          = [⟨"Security Check", "Please wait a moment before submitting.",
              ToastVariant.destructive⟩]) :=
  ⟨(onSubmit_rejection_logging (fun _ => false) [("position", positionRule)] "T" 0
      (fun _ => "Dr") ⟨rlFull, [], [], false⟩).1 (by decide),
   (onSubmit_rejection_logging (fun _ => false) [("position", positionRule)] "T" 0
      (fun _ => "") st0).2.1 (by decide) (by decide),
   (onSubmit_rejection_logging (fun _ => true) [("position", positionRule)] "T" 0
      (fun _ => "Dr") st0).2.2 (by decide) (by decide) rfl⟩

/-- Claim C7: submitting fully valid data when not rate-limited and not
flagged as suspicious enters the Submitting phase, ends with the
Success outcome and the submitting flag cleared, appends exactly one
`form_submission` event with `success = true`, and shows a confirmation
message that includes the event title. -/
theorem onSubmit_success_spec (suspicious : List SecurityEvent → Bool)
    (rules : List (String × ValidationRule)) (eventTitle : String)
    (now : Int) (data : String → String) (st : FormState) :
    (isAllowed st.rl eventRegKey 3 300000 now).1 = true →
    (validateForm data rules).isValid = true →
    suspicious st.events = false →
    let r := onSubmit suspicious rules eventTitle now data st
    r.outcome = SubmitOutcome.success
      ∧ r.submittingEntered = true
      ∧ r.state.isSubmitting = false
      ∧ r.state.events
          = st.events ++ [⟨"form_submission", eventRegKey, none, none, some true⟩]
      ∧ (r.state.events.filter fun e => e.etype == "form_submission").length
          = (st.events.filter fun e => e.etype == "form_submission").length + 1
      ∧ r.toasts = [successToast eventTitle]
      ∧ (successToast eventTitle).description
          = "Thank you for registering for \"" ++ eventTitle
            ++ "\"! You will receive a confirmation email with event details and payment instructions." := by
  intro h1 h2 h3
  refine ⟨?_, ?_, ?_, ?_, ?_, ?_, rfl⟩ <;>
    simp [onSubmit, h1, h2, h3, successToast]

/-- Witness for C7: a concrete fully valid submission on a fresh state. -/
theorem onSubmit_success_spec_witness :
    (onSubmit (fun _ => false) [("position", positionRule)] "Summit" 0 (fun _ => "Dr")
        st0).outcome = SubmitOutcome.success
      ∧ (onSubmit (fun _ => false) [("position", positionRule)] "Summit" 0 (fun _ => "Dr")
          st0).submittingEntered = true
      ∧ (onSubmit (fun _ => false) [("position", positionRule)] "Summit" 0 (fun _ => "Dr")
          st0).state.isSubmitting = false
      ∧ (onSubmit (fun _ => false) [("position", positionRule)] "Summit" 0 (fun _ => "Dr")
          st0).state.events
        = [] ++ [⟨"form_submission", eventRegKey, none, none, some true⟩]
      ∧ ((onSubmit (fun _ => false) [("position", positionRule)] "Summit" 0 (fun _ => "Dr")
          st0).state.events.filter fun e => e.etype == "form_submission").length
        = (List.filter (fun e => e.etype == "form_submission")
            ([] : List SecurityEvent)).length + 1
      ∧ (onSubmit (fun _ => false) [("position", positionRule)] "Summit" 0 (fun _ => "Dr")
          st0).toasts = [successToast "Summit"]
      ∧ (successToast "Summit").description
        = "Thank you for registering for \"" ++ "Summit"
          ++ "\"! You will receive a confirmation email with event details and payment instructions." :=
  onSubmit_success_spec (fun _ => false) [("position", positionRule)] "Summit" 0
    (fun _ => "Dr") st0 (by decide) (by decide) rfl

/-- Claim C10: every attempt that passes the rate-limit check consumes
one of the three attempts in the five-minute window no matter how the
attempt ends (the updated rate-limiter store is kept in every branch),
so after three validation-failing submissions inside the window a
fourth, fully valid submission is rejected by the rate limiter and its
result does not depend on the submitted data (no validation is run). -/
theorem onSubmit_consumes_attempt :
    (∀ (suspicious : List SecurityEvent → Bool)
        (rules : List (String × ValidationRule)) (eventTitle : String)
        (now : Int) (data : String → String) (st : FormState),
      (onSubmit suspicious rules eventTitle now data st).state.rl
        = (isAllowed st.rl eventRegKey 3 300000 now).2)
    ∧ (let susp : List SecurityEvent → Bool := fun _ => false
       let rules := [("position", positionRule)]
       let bad : String → String := fun _ => ""
       let good : String → String := fun _ => "Dr"
       let r1 := onSubmit susp rules "T" 0 bad st0
       let r2 := onSubmit susp rules "T" 1 bad r1.state
       let r3 := onSubmit susp rules "T" 2 bad r2.state
       let r4 := onSubmit susp rules "T" 3 good r3.state
       r1.outcome = SubmitOutcome.validationFailed
         ∧ r2.outcome = SubmitOutcome.validationFailed
         ∧ r3.outcome = SubmitOutcome.validationFailed
         ∧ r4.outcome = SubmitOutcome.rateLimited
         ∧ r4 = onSubmit susp rules "T" 3 bad r3.state
         ∧ getAttempts r4.state.rl eventRegKey = [0, 1, 2]) := by
  constructor
  · intro suspicious rules eventTitle now data st
    simp only [onSubmit]
    split
    · rfl
    · split
      · rfl
      · split
        · rfl
        · rfl
  · decide

/-- Claim C9: the early-bird option is rendered exactly when the fees
object exists, its `earlyBird` amount is defined and nonzero, and the
current date is strictly before 30 days ahead of the event start; a
zero early-bird fee or a date on or past the deadline hides the option,
and a zero fee likewise hides the member, student and regular
options. -/
theorem showEarlyBirdOption_spec :
    (∀ (fees : Option Fees) (today startDate : Int),
      showEarlyBirdOption fees today startDate = true
        ↔ ∃ f, fees = some f
            ∧ ∃ n, f.earlyBird = some n ∧ n ≠ 0 ∧ today < startDate - 30 * dayMs)
    ∧ (∀ (f : Fees) (today startDate : Int), f.earlyBird = some 0 →
        showEarlyBirdOption (some f) today startDate = false)
    ∧ (∀ (f : Fees) (today startDate : Int), startDate - 30 * dayMs ≤ today →
        showEarlyBirdOption (some f) today startDate = false)
    ∧ (∀ f : Fees, f.member = some 0 → showMemberOption (some f) = false)
    ∧ (∀ f : Fees, f.student = some 0 → showStudentOption (some f) = false)
    ∧ (∀ f : Fees, f.regular = some 0 → showRegularOption (some f) = false) := by
  refine ⟨?_, ?_, ?_, ?_, ?_, ?_⟩
  · intro fees today startDate
    cases fees with
    | none => simp [showEarlyBirdOption]
    | some f =>
      cases hf : f.earlyBird with
      | none => simp [showEarlyBirdOption, jsTruthyNum, hf, isEarlyBird]
      | some n => simp [showEarlyBirdOption, jsTruthyNum, hf, isEarlyBird]
  · intro f today startDate h
    simp [showEarlyBirdOption, jsTruthyNum, h]
  · intro f today startDate h
    have h2 : ¬ today < startDate - 30 * dayMs := not_lt.mpr h
    simp [showEarlyBirdOption, isEarlyBird, h2]
  · intro f h
    simp [showMemberOption, jsTruthyNum, h]
  · intro f h
    simp [showStudentOption, jsTruthyNum, h]
  · intro f h
    simp [showRegularOption, jsTruthyNum, h]

/-- Witness for C9: concrete fee configurations for each part of
`showEarlyBirdOption_spec`. -/
theorem showEarlyBirdOption_spec_witness :
    showEarlyBirdOption (some ⟨some 100, some 80, some 50, some 60⟩) 0 (40 * dayMs) = true
      ∧ showEarlyBirdOption (some ⟨some 100, some 0, some 50, some 60⟩) 0 (40 * dayMs) = false
      ∧ showEarlyBirdOption (some ⟨some 100, some 80, some 50, some 60⟩) (20 * dayMs)
          (40 * dayMs) = false
      ∧ showMemberOption (some ⟨some 100, some 80, some 50, some 0⟩) = false
      ∧ showStudentOption (some ⟨some 100, some 80, some 0, some 60⟩) = false
      ∧ showRegularOption (some ⟨some 0, some 80, some 50, some 60⟩) = false :=
  ⟨(showEarlyBirdOption_spec.1 (some ⟨some 100, some 80, some 50, some 60⟩) 0
      (40 * dayMs)).mpr ⟨⟨some 100, some 80, some 50, some 60⟩, rfl, 80, rfl,
        by decide, by decide⟩,
   showEarlyBirdOption_spec.2.1 ⟨some 100, some 0, some 50, some 60⟩ 0 (40 * dayMs) rfl,
   showEarlyBirdOption_spec.2.2.1 ⟨some 100, some 80, some 50, some 60⟩ (20 * dayMs)
     (40 * dayMs) (by decide),
   showEarlyBirdOption_spec.2.2.2.1 ⟨some 100, some 80, some 50, some 0⟩ rfl,
   showEarlyBirdOption_spec.2.2.2.2.1 ⟨some 100, some 80, some 0, some 60⟩ rfl,
   showEarlyBirdOption_spec.2.2.2.2.2 ⟨some 0, some 80, some 50, some 60⟩ rfl⟩

end CCEA
